import Mathlib

/-!
Verification development for the MyMICDS-v2 calendar core.

This file gives a shallow embedding of the calendar normalization and
rotation-scheduling logic of the repository (src/libs/dates.js and the
`getSchedule` routine of src/libs/portal.js) and settles the frozen claims
about it.

Modelling conventions:
* Instants are milliseconds since the Unix epoch, as `Nat` (the code only
  ever manipulates post-1970 instants).  Calendar dates are day numbers
  (days since 1970-01-01) converted to and from `(year, month, day)`
  triples with the standard civil-calendar algorithms.
* The local timezone is modelled as UTC, so `Date#getHours` etc. are the
  UTC field extractors.  All of the code under study treats dates
  uniformly, so this choice is inessential.
* JavaScript arrays of mutable objects (the `schedule` array in
  `getSchedule`) are modelled with an explicit heap: a store of blocks
  addressed by allocation index, plus the array of indices.  This keeps
  the aliasing behaviour of `Array#splice` / object mutation faithful.
* Code that can throw a `TypeError` (an access to a property of
  `undefined`) is modelled in the `Option` monad; `none` is the thrown
  exception propagating out of the routine.
-/

/-! ## Civil calendar arithmetic (Date / moment field extraction) -/

/-- Day number (days since 1970-01-01) of a Gregorian date.  Standard
"days from civil" algorithm; valid for dates from 1970 on, which is the
only range the code touches. -/
def daysFromCivil (y m d : Nat) : Nat :=
  let y' := y - (if m ≤ 2 then 1 else 0)
  let era := y' / 400
  let yoe := y' % 400
  let mp := (m + 9) % 12
  let doy := (153 * mp + 2) / 5 + d - 1
  let doe := yoe * 365 + yoe / 4 - yoe / 100 + doy
  era * 146097 + doe - 719468

/-- Inverse of `daysFromCivil`: the `(year, month, day)` triple (month
1-based) of a day number.  Standard "civil from days" algorithm. -/
def civilFromDays (z : Nat) : Nat × Nat × Nat :=
  let z' := z + 719468
  let era := z' / 146097
  let doe := z' % 146097
  let yoe := (doe - doe / 1460 + doe / 36524 - doe / 146096) / 365
  let y := yoe + era * 400
  let doy := doe - (365 * yoe + yoe / 4 - yoe / 100)
  let mp := (5 * doy + 2) / 153
  let d := doy - (153 * mp + 2) / 5 + 1
  let m := if mp < 10 then mp + 3 else mp - 9
  (if m ≤ 2 then y + 1 else y, m, d)

/-- Day of week as `Date#getDay` / moment `.day()` return it, 0 = Sunday … 6 = Saturday.
1970-01-01 (day 0) was a Thursday. -/
def weekday (z : Nat) : Nat := (z + 4) % 7

/-- Field extractor `Date#getHours` on an instant in ms. -/
def getHours (t : Nat) : Nat := t / 3600000 % 24

/-- Field extractor `Date#getMinutes` on an instant in ms. -/
def getMinutes (t : Nat) : Nat := t / 60000 % 60

/-- Field extractor `Date#getSeconds` on an instant in ms. -/
def getSeconds (t : Nat) : Nat := t / 1000 % 60

/-- Field extractor `Date#getFullYear` on an instant in ms. -/
def getFullYear (t : Nat) : Nat := (civilFromDays (t / 86400000)).1

/-- Field extractor `Date#getMonth` on an instant in ms (0-based, as in JavaScript). -/
def getMonth (t : Nat) : Nat := (civilFromDays (t / 86400000)).2.1 - 1

/-- Field extractor `Date#getDate` on an instant in ms (day of month, 1-based). -/
def getDate (t : Nat) : Nat := (civilFromDays (t / 86400000)).2.2

/-! ## dates.js: `lastFridayMay` and `schoolEnds`

`lastFridayMay` builds the moment for May 31 of the year (at 11:30 local),
then runs a `switch` on its day of week.  The `switch` has no `break`
statements, so case 5 (Friday) falls through into case 6 and case 6 falls
through into the default clause; moment's `subtract` mutates the moment in
place, so every branch that runs keeps subtracting from the same object.
We model the date part as a day number; the fixed 11:30 display time is
added separately for the instant-valued version. -/

/-- The day number computed by `dates.js` `lastFridayMay(year)`.  Faithful
to the fall-through `switch`: for day-of-week 5 or 6 the `subtract(1,
'day')` of case 6 runs, and the default clause
`subtract(lastDayOfMay.day() + 2, 'days')` then always runs on the
(possibly already mutated) moment. -/
def lastFridayMay (year : Nat) : Nat :=
  let lastDayOfMay := daysFromCivil year 5 31
  let w := weekday lastDayOfMay
  -- cases 5 and 6 both end up executing case 6's `subtract(1, 'day')`
  -- (case 5 falls through), and then the default clause runs as well
  let afterCases := if w = 5 ∨ w = 6 then lastDayOfMay - 1 else lastDayOfMay
  afterCases - (weekday afterCases + 2)

/-- The actual last Friday in May, written from the specification's words
("the last Friday in May of the given year"): the latest day `≤ May 31`
whose day of week is Friday.  Used to compare the code against the spec. -/
def lastFridayMaySpec (year : Nat) : Nat :=
  let lastDayOfMay := daysFromCivil year 5 31
  lastDayOfMay - (weekday lastDayOfMay + 2) % 7

/-- Instant (ms) of `lastFridayMay year` at the fixed nominal display time
11:30. -/
def lastFridayMayMs (year : Nat) : Nat :=
  lastFridayMay year * 86400000 + 41400000

/-- The `dates.js` routine `schoolEnds()`: this year's `lastFridayMay` if it is still
strictly in the future (`isAfter(current)`), otherwise next year's.  The
ambient clock `moment()` is passed in explicitly as `now` (ms). -/
def schoolEnds (now : Nat) : Nat :=
  let lastDayThisYear := lastFridayMayMs (getFullYear now)
  if now < lastDayThisYear then lastDayThisYear
  else lastFridayMayMs (getFullYear now + 1)

/-! ## portal.js: `getSchedule`

`scheduleFeed#getSchedule(day, month, year)` scans the parsed iCal events,
keeps the ones whose start falls on the requested calendar date, routes
midnight-start events to the announcements list (or, if the summary
matches `/^Day [1-6]/`, to the rotation day), and merges the remaining
intraday events into the `schedule` array with the five-case overlap
cascade, finally sorting by start time. -/

/-- A parsed iCal event as `getSchedule` consumes it (`event.start`,
`event.end`, `event.summary`, `event.description`, `event.location`).
`stop` is the source's `end` field (`end` is reserved in Lean). -/
structure CalEvent where
  start : Nat
  stop : Nat
  summary : List Char
  description : List Char
  location : List Char
deriving DecidableEq

/-- A schedule block: the `period` object pushed on the `schedule` array
(`start`, `end`, `class`, `description`, `location`).  `stop` and `cls`
stand for the reserved words `end` and `class`. -/
structure Block where
  start : Nat
  stop : Nat
  cls : List Char
  description : List Char
  location : List Char
deriving DecidableEq

/-- An all-day `period` object pushed on the `events` array
(`name`, `description`, `location`). -/
structure AllDayEvent where
  name : List Char
  description : List Char
  location : List Char
deriving DecidableEq

/-- Placeholder block for (unreachable) lookups of absent heap cells. -/
def dummyBlock : Block := ⟨0, 0, [], [], []⟩

/-- The mutable `schedule` array of block objects.  JavaScript objects are
mutable and aliased, so we model a heap: `store` is every block object
ever allocated (addressed by allocation index) and `ids` is the array
itself, holding references into `store`.  `Array#push` of an existing
object appends its index, so one object can legitimately sit at two array
positions. -/
structure MergeArr where
  store : List Block
  ids : List Nat
deriving DecidableEq

/-- The block objects currently in the array, in array order. -/
def MergeArr.blocks (s : MergeArr) : List Block :=
  s.ids.filterMap (fun i => s.store.get? i)

/-- In-place field update of the object at heap address `i`. -/
def setBlock (st : List Block) (i : Nat) (f : Block → Block) : List Block :=
  match st.get? i with
  | some b => st.set i (f b)
  | none => st

/-- One iteration of the `schedule.forEach` body of `getSchedule` for the
incoming interval `[sT, eT)`, at array index `k`.  `startBlock`/`endBlock`
are read once at entry; each of the five `if`s then runs on the current
state.  The fifth case re-reads `schedule[index]` after the third and
fourth may have spliced it away: if the slot is gone the source
dereferences `undefined` and throws (`none`). -/
def overlapBody (sT eT : Nat) (s : MergeArr) (k : Nat) : Option MergeArr :=
  match s.ids.get? k with
  | none => some s            -- forEach skips indices spliced away earlier
  | some bid =>
    let sB := ((s.store.get? bid).getD dummyBlock).start
    let eB := ((s.store.get? bid).getD dummyBlock).stop
    -- if start is inside period but end is not: schedule[index].start = endPeriod
    let s1 := if (sB < sT ∧ sT < eB) ∧ eB < eT then
        { s with store := setBlock s.store bid (fun b => { b with start := eT }) }
      else s
    -- if end is inside period but start is not: schedule[index].end = startPeriod
    let s2 := if (sB < eT ∧ eT < eB) ∧ sT < sB then
        { s1 with store := setBlock s1.store bid (fun b => { b with stop := sT }) }
      else s1
    -- if event is completely inside the event we're trying to add: splice it out
    let s3 := if (sB < sT ∧ sT < eB) ∧ (sB < eT ∧ eT < eB) then
        { s2 with ids := s2.ids.eraseIdx k }
      else s2
    -- if the event is the exact same: splice it out
    let s4 := if sB = sT ∧ eB = eT then
        { s3 with ids := s3.ids.eraseIdx k }
      else s3
    -- if the event we're trying to add is completely inside the event:
    -- split this old event into two (mutating and re-pushing the object
    -- now found at schedule[index])
    if sB < sT ∧ eT < eB then
      match s4.ids.get? k with
      | none => none          -- schedule[index] is undefined: TypeError
      | some bid2 =>
        let oldEnd := ((s4.store.get? bid2).getD dummyBlock).stop
        let st1 := setBlock s4.store bid2 (fun b => { b with stop := sT })
        let st2 := setBlock st1 bid2 (fun b => { b with start := eT })
        let st3 := setBlock st2 bid2 (fun b => { b with stop := oldEnd })
        some { store := st3, ids := s4.ids ++ [bid2] }
    else some s4

/-- Merging one intraday event record into the schedule: run the
`forEach` overlap cascade over the indices the array had on entry (JS
`forEach` fixes the length up front and skips since-deleted slots), then
push the new period object unconditionally. -/
def addPeriod (s : MergeArr) (ev : CalEvent) : Option MergeArr := do
  let sT := ev.start
  let eT := ev.stop
  let s' ← (List.range s.ids.length).foldlM (fun acc k => overlapBody sT eT acc k) s
  return { store := s'.store ++ [⟨sT, eT, ev.summary, ev.description, ev.location⟩],
           ids := s'.ids ++ [s'.store.length] }

/-- The regex test `/^Day [1-6]/.test(name)`: case-sensitive match of the fixed
rotation-day title prefix. -/
def rotationTest (s : List Char) : Bool :=
  match s with
  | 'D' :: 'a' :: 'y' :: ' ' :: c :: _ => decide ('1' ≤ c ∧ c ≤ '6')
  | _ => false

/-- The extraction `parseInt(name.match(/[1-6]/)[0])`: numeric value of the first
character in `'1'..'6'` (the regex test above guarantees one exists when
this is consulted). -/
def firstDigit16 (s : List Char) : Option Nat :=
  match s with
  | [] => none
  | c :: rest => if '1' ≤ c ∧ c ≤ '6' then some (c.toNat - 48) else firstDigit16 rest

/-- The `eventDate.getDate() === day && eventDate.getMonth() === month &&
eventDate.getFullYear() === year` filter. -/
def dateMatches (t : Nat) (day month year : Nat) : Bool :=
  (getDate t == day) && (getMonth t == month) && (getFullYear t == year)

/-- The all-day test of `getSchedule`: seconds, minutes and hours of the
event's *start* are all zero (the end instant is never examined). -/
def allDayCheck (t : Nat) : Bool :=
  (getSeconds t == 0) && (getMinutes t == 0) && (getHours t == 0)

/-- The specification's classification of an all-day event, written from
its words: both start and end coincide with midnight boundaries and the
span is at least one full day.  Declared only to compare the code's
`allDayCheck` against it. -/
def specAllDay (ev : CalEvent) : Prop :=
  ev.start % 86400000 = 0 ∧ ev.stop % 86400000 = 0 ∧
    ev.start + 86400000 ≤ ev.stop

instance (ev : CalEvent) : Decidable (specAllDay ev) := by
  unfold specAllDay; infer_instance

/-- Accumulator of the `_.each(this.parsed, …)` scan: the rotation day
found so far (`scheduleDay`, `undefined` initially), the schedule array,
and the all-day `events` list. -/
structure ScanState where
  scheduleDay : Option Nat
  schedule : MergeArr
  events : List AllDayEvent
deriving DecidableEq

/-- Processing of one parsed event inside `getSchedule`'s `_.each` loop:
skip events on other dates; route midnight-start events to the rotation
day or the announcements; merge the rest into the schedule (which can
throw, `none`). -/
def processEvent (day month year : Nat) (st : ScanState) (ev : CalEvent) :
    Option ScanState :=
  if dateMatches ev.start day month year then
    if allDayCheck ev.start then
      let period : AllDayEvent := ⟨ev.summary, ev.description, ev.location⟩
      if rotationTest period.name then
        some { st with scheduleDay := firstDigit16 period.name }
      else
        some { st with events := st.events ++ [period] }
    else
      match addPeriod st.schedule ev with
      | some m => some { st with schedule := m }
      | none => none
  else
    some st

/-- The parsed feed object: `success` is `null` before verification and
then `true`/`false`; `parsed` is the event list (in iCal insertion
order). -/
structure Feed where
  success : Option Bool
  parsed : List CalEvent
deriving DecidableEq

/-- The `{day, schedule, events}` object `getSchedule` returns on a
verified feed (`day` is `undefined` when no rotation event matched). -/
structure DayResult where
  day : Option Nat
  schedule : List Block
  events : List AllDayEvent
deriving DecidableEq

/-- The final `schedule.sort` by start time (a stable ascending sort, as
the `aStart - bStart` comparator demands). -/
def sortBlocks (l : List Block) : List Block :=
  l.insertionSort (fun a b => a.start ≤ b.start)

/-- The routine `scheduleFeed#getSchedule(day, month, year)` (after the `day || …`
argument defaulting, which consults the ambient clock upstream of this
core).  Returns `.ok none` for the bare `{}` handed back when the feed
was not successfully verified, `.ok (some r)` for a normal result, and
`.error ()` when the merge cascade throws a `TypeError`. -/
def getSchedule (feed : Feed) (day month year : Nat) :
    Except Unit (Option DayResult) :=
  if feed.success = some true then
    match feed.parsed.foldlM (processEvent day month year) ⟨none, ⟨[], []⟩, []⟩ with
    | some st => .ok (some ⟨st.scheduleDay, sortBlocks st.schedule.blocks, st.events⟩)
    | none => .error ()
  else
    .ok none

/-! ## dates.js: `getDaysOff` and `getBreaks`

`getDaysOff` walks every day of the window `[now − previous months, now +
upcoming months]` and records the days with no rotation-day entry in the
`days[year][month + 1][date]` lookup that `portal.getDayRotations`
supplied; `getBreaks` then groups consecutive off-days with a `reduce`
whose accumulator is a (possibly holey) array of arrays.  The rotation
lookup and the window bounds are passed in as parameters, which is exactly
what the callbacks deliver. -/

/-- Read `stack[i]` on a JavaScript array that may have holes: `undefined`
(`none`) when out of range or a hole. -/
def getAt (stack : List (Option (List Nat))) (i : Nat) : Option (List Nat) :=
  match stack.get? i with
  | some v => v
  | none => none

/-- Write `stack[i] = v` on a JavaScript array: in-range assignment overwrites,
past-the-end assignment pads the gap with holes. -/
def setAt (stack : List (Option (List Nat))) (i : Nat) (v : List Nat) :
    List (Option (List Nat)) :=
  if i < stack.length then stack.set i (some v)
  else stack ++ List.replicate (i - stack.length) none ++ [some v]

/-- One step of the `days.reduce` grouping in `getBreaks`.  The state is
the captured counter `i` together with the accumulator array.  `a` is
`cur ? cur[cur.length - 1] : 0` — `some 0` when slot `i` is empty, the
last element of the current group otherwise (a group is never empty, so
the `cur[cur.length - 1] === undefined` branch, modelled by `none`, is
unreachable; on `undefined` the `NaN > 86400000` comparison is false). -/
def breakStep (st : Nat × List (Option (List Nat))) (b : Nat) :
    Nat × List (Option (List Nat)) :=
  let i := st.1
  let stack := st.2
  let a : Option Nat :=
    match getAt stack i with
    | some cur => cur.getLast?
    | none => some 0
  let i' :=
    match a with
    | some av => if b - av > 86400000 then i + 1 else i
    | none => i
  let stack1 :=
    match getAt stack i' with
    | some _ => stack
    | none => setAt stack i' []
  let stack2 := setAt stack1 i' ((getAt stack1 i').getD [] ++ [b])
  (i', stack2)

/-- The grouped-days array `getBreaks` hands to its callback: the
`reduce` of `breakStep` over the off-day list, starting from `i = 0` and
an empty array. -/
def groupBreaks (days : List Nat) : List (Option (List Nat)) :=
  (days.foldl breakStep (0, [])).2

/-- The truthiness test `days[year] && days[year][month + 1] &&
days[year][month + 1][date]` of `getDaysOff`, on the civil decomposition
of a day number (`days` maps year, 1-based month, day of month to whether
a rotation day is present). -/
def hasRotation (days : Nat → Nat → Nat → Bool) (z : Nat) : Bool :=
  let c := civilFromDays z
  days c.1 c.2.1 c.2.2

/-- The day numbers of the window `[start, maxd]` (inclusive, ascending
daily steps) that have no rotation day. -/
def offDayNums (days : Nat → Nat → Nat → Bool) (start maxd : Nat) : List Nat :=
  ((List.range (maxd + 1 - start)).map (fun k => start + k)).filter
    (fun z => ! hasRotation days z)

/-- The `daysOff` array of `getDaysOff`: the off days of the window as
start-of-day instants in ms (a cloned moment coerces to its timestamp in
the later `b - a` arithmetic). -/
def getDaysOff (days : Nat → Nat → Nat → Bool) (start maxd : Nat) : List Nat :=
  (offDayNums days start maxd).map (fun z => z * 86400000)

/-- The left-to-right grouping of an off-day list that the `reduce`
computes, as plain structural recursion: `cur` is the group being grown;
a gap strictly over one day closes it. -/
def gpAux (cur : List Nat) : List Nat → List (List Nat)
  | [] => [cur]
  | b :: rest =>
    if b - cur.getLastD 0 > 86400000 then cur :: gpAux [b] rest
    else gpAux (cur ++ [b]) rest

-- sanity checks of the calendar arithmetic on known dates
example : civilFromDays 0 = (1970, 1, 1) := by decide
example : daysFromCivil 1970 1 1 = 0 := by decide
example : daysFromCivil 2024 1 15 = 19737 := by decide
example : civilFromDays 19737 = (2024, 1, 15) := by decide
example : weekday (daysFromCivil 2019 5 31) = 5 := by decide
example : weekday (daysFromCivil 2025 5 31) = 6 := by decide

/-! ## Claims about the schedule merger (C1–C3)

All three scenarios are evaluated on the date 2024-01-15
(`daysFromCivil 2024 1 15 = 19737`, midnight instant 1705276800000 ms);
the query is `getSchedule(15, 0, 2024)` (JavaScript months are 0-based).
Clock times used: 09:00 = 1705309200000, 09:30 = 1705311000000,
10:00 = 1705312800000, 10:30 = 1705314600000, 11:00 = 1705316400000. -/

/-- Claim C1: the spec says merging `N = [10:00, 10:30)` into a schedule
holding only `B = [09:00, 11:00)` yields the three blocks `[09:00,
10:00)`, `[10:00, 10:30)`, `[10:30, 11:00)`.  The code instead throws: its
"event is completely inside the event we're trying to add" test actually
matches the incoming-inside-existing situation and splices `B` away, and
the split case then dereferences the vacated `schedule[index]` slot
(`undefined`), raising a `TypeError` — modelled as `.error ()`. -/
theorem c1_fullContainment_throws :
    getSchedule ⟨some true, [⟨1705309200000, 1705316400000, ['B'], [], []⟩,
        ⟨1705312800000, 1705314600000, ['N'], [], []⟩]⟩ 15 0 2024 =
      .error () := by rfl

/-- Claim C2: the spec says merging `N = [10:00, 11:00)` into a schedule
holding only `B = [09:00, 10:30)` truncates `B` to `[09:00, 10:00)`.  The
code's tail-overlap branch instead assigns `schedule[index].start =
endPeriod`, leaving the inverted block `[11:00, 10:30)` beside `N`, not
the claimed `[09:00, 10:00)` and `[10:00, 11:00)`. -/
theorem c2_tailOverlap_eval :
    getSchedule ⟨some true, [⟨1705309200000, 1705314600000, ['B'], [], []⟩,
        ⟨1705312800000, 1705316400000, ['N'], [], []⟩]⟩ 15 0 2024 =
      .ok (some ⟨none, [⟨1705312800000, 1705316400000, ['N'], [], []⟩,
        ⟨1705316400000, 1705314600000, ['B'], [], []⟩], []⟩) := by rfl

/-- Claim C3: the spec's invariant — the returned block list is sorted by
start and no two blocks overlap beyond a shared boundary.  Feeding
`B = [09:00, 10:00)` and then `N = [09:30, 10:00)` (which shares `B`'s
right endpoint) matches none of the five overlap cases, because the
tail-overlap test demands `endBlock < endTime` strictly; both blocks
survive untouched and overlap on the whole interior `(09:30, 10:00)`,
refuting the invariant.  The final conjuncts exhibit the overlap: the
second block starts strictly inside the first. -/
theorem c3_overlap_violation :
    getSchedule ⟨some true, [⟨1705309200000, 1705312800000, ['B'], [], []⟩,
        ⟨1705311000000, 1705312800000, ['N'], [], []⟩]⟩ 15 0 2024 =
      .ok (some ⟨none, [⟨1705309200000, 1705312800000, ['B'], [], []⟩,
        ⟨1705311000000, 1705312800000, ['N'], [], []⟩], []⟩) ∧
    1705309200000 < 1705311000000 ∧ 1705311000000 < 1705312800000 :=
  ⟨by rfl, by decide, by decide⟩

/-! ## Claims about the school-year boundary estimator (C4, C5) -/

/-- Claim C4: `lastFridayMay` should return the last Friday in May for
every weekday of May 31.  In 2019 May 31 itself was a Friday (`weekday =
5`), so the last Friday of May 2019 is May 31 — but the `switch` falls
through case 5 into case 6's `subtract(1, 'day')` and then into the
default clause, and the code returns May 24, one week early (it is also a
week early when May 31 is a Saturday, e.g. 2025).  `lastFridayMaySpec` is
the value the claim demands. -/
theorem c4_lastFriday_eval :
    weekday (daysFromCivil 2019 5 31) = 5 ∧
    lastFridayMay 2019 = daysFromCivil 2019 5 24 ∧
    lastFridayMaySpec 2019 = daysFromCivil 2019 5 31 ∧
    lastFridayMay 2019 ≠ lastFridayMaySpec 2019 := by decide

/-- Claim C5: `schoolEnds` returns the current year's `lastFridayMay`
instant when it is still strictly after `now` (`isAfter` is strict), and
next year's otherwise.  "Last-Friday-of-May date" here is the output of
the estimator's own `lastFridayMay` routine. -/
theorem c5_schoolEnds (now : Nat) :
    (now < lastFridayMayMs (getFullYear now) →
      schoolEnds now = lastFridayMayMs (getFullYear now)) ∧
    (lastFridayMayMs (getFullYear now) ≤ now →
      schoolEnds now = lastFridayMayMs (getFullYear now + 1)) := by
  constructor
  · intro h
    simp [schoolEnds, h]
  · intro h
    simp [schoolEnds, Nat.not_lt.mpr h]

/-- Witness for C5: 2024-01-15 12:00 is before `lastFridayMayMs 2024`
(which falls on 2024-05-24 11:30), so `schoolEnds` keeps 2024;
2024-06-15 00:00 is after it, so `schoolEnds` moves to 2025. -/
theorem c5_schoolEnds_witness :
    (1705320000000 < lastFridayMayMs (getFullYear 1705320000000) ∧
      schoolEnds 1705320000000 = lastFridayMayMs (getFullYear 1705320000000)) ∧
    (lastFridayMayMs (getFullYear 1718409600000) ≤ 1718409600000 ∧
      schoolEnds 1718409600000 = lastFridayMayMs (getFullYear 1718409600000 + 1)) :=
  ⟨⟨by decide, (c5_schoolEnds 1705320000000).1 (by decide)⟩,
   ⟨by decide, (c5_schoolEnds 1718409600000).2 (by decide)⟩⟩

/-! ## Claims about the all-day classifier (C7) -/

/-- Claim C7, counterexample: the classifier examines only the *start* of
the event.  The event `[2024-01-15 00:00, 2024-01-15 00:30)` starts at a
midnight boundary but ends intraday, so the claim says it must not be
classified all-day; the code classifies it all-day and reports it as an
announcement (`events`), producing no schedule block. -/
theorem c7_counterexample :
    allDayCheck 1705276800000 = true ∧
    ¬ specAllDay ⟨1705276800000, 1705278600000, ['X'], [], []⟩ ∧
    getSchedule ⟨some true, [⟨1705276800000, 1705278600000, ['X'], [], []⟩]⟩
        15 0 2024 =
      .ok (some ⟨none, [], [⟨['X'], [], []⟩]⟩) :=
  ⟨by decide, by decide, by rfl⟩

/-- Claim C7, amended: an event is classified all-day iff its start
instant lies within the first second of a calendar day (hours, minutes
and seconds of the start all zero); the end instant and the span are
never examined. -/
theorem c7_allDay_amended (t : Nat) :
    allDayCheck t = true ↔ t % 86400000 < 1000 := by
  simp only [allDayCheck, getSeconds, getMinutes, getHours,
    Bool.and_eq_true, beq_iff_eq]
  omega

/-! ## Claim about rotation-day title matching (C8) -/

/-- On a title of the form `"Day c…"` with `c ∈ '1'..'6'`, the first
`[1-6]` character the regex finds is `c` itself (`'D'`, `'a'`, `'y'` and
the space are outside the class), so `parseInt` yields its digit value. -/
lemma firstDigit16_day (c : Char) (rest : List Char) (h1 : '1' ≤ c) (h2 : c ≤ '6') :
    firstDigit16 ('D' :: 'a' :: 'y' :: ' ' :: c :: rest) = some (c.toNat - 48) := by
  have hD : ¬('1' ≤ 'D' ∧ 'D' ≤ '6') := by decide
  have hA : ¬('1' ≤ 'a' ∧ 'a' ≤ '6') := by decide
  have hY : ¬('1' ≤ 'y' ∧ 'y' ≤ '6') := by decide
  have hS : ¬('1' ≤ ' ' ∧ ' ' ≤ '6') := by decide
  simp only [firstDigit16, if_neg hD, if_neg hA, if_neg hY, if_neg hS,
    if_pos (And.intro h1 h2)]

/-- The regex `/^Day [1-6]/` accepts every title of the form `"Day c…"` with
`c ∈ '1'..'6'`. -/
lemma rotationTest_day (c : Char) (rest : List Char) (h1 : '1' ≤ c) (h2 : c ≤ '6') :
    rotationTest ('D' :: 'a' :: 'y' :: ' ' :: c :: rest) = true := by
  simp only [rotationTest]
  exact decide_eq_true ⟨h1, h2⟩

/-- Claim C8: rotation-day title matching is case-sensitive.  For an
all-day event on the queried date: a summary starting with `"Day "`
followed by a digit `1`–`6` sets the day's rotation day to that digit
(and is not added to the announcements), while `"day 3"` and `"Day 7"`
fail the regex and the event is pushed onto the announcements list
instead — an ordinary event, not an error. -/
theorem c8_rotationTitle (day month year : Nat) (st : ScanState) (ev : CalEvent)
    (hd : dateMatches ev.start day month year = true)
    (ha : allDayCheck ev.start = true) :
    (∀ (c : Char) (rest : List Char),
        ev.summary = 'D' :: 'a' :: 'y' :: ' ' :: c :: rest → '1' ≤ c → c ≤ '6' →
        processEvent day month year st ev =
          some { st with scheduleDay := some (c.toNat - 48) }) ∧
    (ev.summary = ['d', 'a', 'y', ' ', '3'] ∨ ev.summary = ['D', 'a', 'y', ' ', '7'] →
        rotationTest ev.summary = false ∧
        processEvent day month year st ev =
          some { st with events :=
            st.events ++ [⟨ev.summary, ev.description, ev.location⟩] }) := by
  constructor
  · intro c rest hsum h1 h2
    have htest : rotationTest ev.summary = true := by
      rw [hsum]; exact rotationTest_day c rest h1 h2
    have hdig : firstDigit16 ev.summary = some (c.toNat - 48) := by
      rw [hsum]; exact firstDigit16_day c rest h1 h2
    simp [processEvent, hd, ha, htest, hdig]
  · intro hsum
    have htest : rotationTest ev.summary = false := by
      rcases hsum with h | h <;> rw [h] <;> decide
    refine ⟨htest, ?_⟩
    simp [processEvent, hd, ha, htest]

/-- Witness for C8: on 2024-01-15, an all-day `"Day 3"` event sets the
rotation day to 3 with no announcement, and an all-day `"day 3"` event
leaves the rotation day unset and lands in the announcements. -/
theorem c8_rotationTitle_witness :
    dateMatches 1705276800000 15 0 2024 = true ∧
    allDayCheck 1705276800000 = true ∧
    processEvent 15 0 2024 ⟨none, ⟨[], []⟩, []⟩
        ⟨1705276800000, 1705363200000, ['D', 'a', 'y', ' ', '3'], [], []⟩ =
      some ⟨some 3, ⟨[], []⟩, []⟩ ∧
    processEvent 15 0 2024 ⟨none, ⟨[], []⟩, []⟩
        ⟨1705276800000, 1705363200000, ['d', 'a', 'y', ' ', '3'], [], []⟩ =
      some ⟨none, ⟨[], []⟩, [⟨['d', 'a', 'y', ' ', '3'], [], []⟩]⟩ := by
  refine ⟨by decide, by decide, ?_, ?_⟩
  · have h := (c8_rotationTitle 15 0 2024 ⟨none, ⟨[], []⟩, []⟩
      ⟨1705276800000, 1705363200000, ['D', 'a', 'y', ' ', '3'], [], []⟩
      (by decide) (by decide)).1 '3' [] rfl (by decide) (by decide)
    have h3 : ('3'.toNat - 48) = 3 := by decide
    rw [h3] at h
    exact h
  · have h := (c8_rotationTitle 15 0 2024 ⟨none, ⟨[], []⟩, []⟩
      ⟨1705276800000, 1705363200000, ['d', 'a', 'y', ' ', '3'], [], []⟩
      (by decide) (by decide)).2 (Or.inl rfl)
    exact h.2

/-! ## Claim about the unverified-feed path (C10) -/

/-- Claim C10: when the feed was not successfully verified and parsed
(`this.success` is `null` or `false`, i.e. not `true`), `getSchedule`
returns the bare empty object `{}` (modelled `.ok none`) for every
requested date, and does not throw. -/
theorem c10_unverified_feed (feed : Feed) (day month year : Nat)
    (h : feed.success ≠ some true) :
    getSchedule feed day month year = .ok none := by
  unfold getSchedule
  rw [if_neg h]

/-- Witness for C10 at a concrete unverified feed and date. -/
theorem c10_unverified_feed_witness :
    (Feed.mk (some false) [⟨1705276800000, 1705278600000, ['X'], [], []⟩]).success
        ≠ some true ∧
    getSchedule ⟨some false, [⟨1705276800000, 1705278600000, ['X'], [], []⟩]⟩
        15 0 2024 = .ok none :=
  ⟨by decide, c10_unverified_feed _ 15 0 2024 (by decide)⟩

/-! ## Claims about `getDaysOff` / `getBreaks` (C6, C9)

The `reduce` in `getBreaks` is related to the structural grouping `gpAux`
by an induction over the fold, after which the claimed grouping
properties are inductions on `gpAux`. -/

lemma getLast?_of_ne_nil (l : List Nat) (h : l ≠ []) :
    l.getLast? = some (l.getLastD 0) := by
  rw [List.getLastD_eq_getLast?]
  cases h' : l.getLast? with
  | none => exact absurd (List.getLast?_eq_none_iff.mp h') h
  | some x => rfl

lemma getAt_concat (pre : List (Option (List Nat))) (x : Option (List Nat)) :
    getAt (pre ++ [x]) pre.length = x := by
  unfold getAt
  rw [List.get?_concat_length]

lemma getAt_last_none (stack : List (Option (List Nat))) (n : Nat)
    (h : stack.length ≤ n) : getAt stack n = none := by
  unfold getAt
  rw [List.get?_eq_none.mpr h]

lemma set_concat (pre : List (Option (List Nat))) (x y : Option (List Nat)) :
    (pre ++ [x]).set pre.length y = pre ++ [y] := by
  simp

lemma breakStep_cont (pre : List (Option (List Nat))) (cur : List Nat) (b : Nat)
    (hcur : cur ≠ []) (hle : ¬ 86400000 < b - cur.getLastD 0) :
    breakStep (pre.length, pre ++ [some cur]) b =
      (pre.length, pre ++ [some (cur ++ [b])]) := by
  unfold breakStep
  simp only [getAt_concat, getLast?_of_ne_nil cur hcur]
  rw [if_neg hle]
  simp only [getAt_concat]
  unfold setAt
  rw [if_pos (by simp)]
  rw [set_concat]
  simp

lemma breakStep_new (pre : List (Option (List Nat))) (cur : List Nat) (b : Nat)
    (hcur : cur ≠ []) (hgt : 86400000 < b - cur.getLastD 0) :
    breakStep (pre.length, pre ++ [some cur]) b =
      (pre.length + 1, (pre ++ [some cur]) ++ [some [b]]) := by
  have h2 : getAt (pre ++ [some cur]) (pre.length + 1) = none :=
    getAt_last_none _ _ (by simp)
  have h3 : setAt (pre ++ [some cur]) (pre.length + 1) [] =
      (pre ++ [some cur]) ++ [some []] := by
    unfold setAt
    rw [if_neg (by simp)]
    simp
  have h4 : getAt ((pre ++ [some cur]) ++ [some []]) (pre.length + 1) = some [] := by
    have h := getAt_concat (pre ++ [some cur]) (some [])
    simpa using h
  have h5 : setAt ((pre ++ [some cur]) ++ [some []]) (pre.length + 1) [b] =
      (pre ++ [some cur]) ++ [some [b]] := by
    unfold setAt
    rw [if_pos (by simp)]
    have h := set_concat (pre ++ [some cur]) (some []) (some [b])
    simp only [List.length_append, List.length_singleton] at h
    exact h
  unfold breakStep
  simp only [getAt_concat, getLast?_of_ne_nil cur hcur]
  rw [if_pos hgt]
  simp only [h2, h3, h4]
  simpa using h5

lemma breakStep_nil_gt (b : Nat) (h : 86400000 < b) :
    breakStep (0, []) b = (1, [none, some [b]]) := by
  simp [breakStep, getAt, setAt, h]

lemma breakStep_nil_le (b : Nat) (h : ¬ 86400000 < b) :
    breakStep (0, []) b = (0, [some [b]]) := by
  simp [breakStep, getAt, setAt, h]

lemma gpAux_length_pos (rest : List Nat) : ∀ cur, 0 < (gpAux cur rest).length := by
  induction rest with
  | nil => intro cur; simp [gpAux]
  | cons b rest ih =>
    intro cur
    simp only [gpAux]
    split
    · simp
    · exact ih (cur ++ [b])

lemma foldl_break (rest : List Nat) :
    ∀ (pre : List (Option (List Nat))) (cur : List Nat), cur ≠ [] →
    rest.foldl breakStep (pre.length, pre ++ [some cur]) =
      (pre.length + (gpAux cur rest).length - 1, pre ++ (gpAux cur rest).map some) := by
  induction rest with
  | nil =>
    intro pre cur hcur
    simp [gpAux]
  | cons b rest ih =>
    intro pre cur hcur
    rw [List.foldl_cons]
    by_cases hgap : 86400000 < b - cur.getLastD 0
    · rw [breakStep_new pre cur b hcur hgap]
      have h2 := ih (pre ++ [some cur]) [b] (by simp)
      simp only [List.length_append, List.length_singleton] at h2
      rw [h2]
      rw [show gpAux cur (b :: rest) = cur :: gpAux [b] rest from by
        simp only [gpAux]; rw [if_pos hgap]]
      have hlen := gpAux_length_pos rest [b]
      simp only [Prod.mk.injEq, List.length_cons, List.map_cons, List.append_assoc,
        List.singleton_append]
      exact ⟨by omega, trivial⟩
    · rw [breakStep_cont pre cur b hcur hgap]
      rw [show gpAux cur (b :: rest) = gpAux (cur ++ [b]) rest from by
        simp only [gpAux]; rw [if_neg hgap]]
      exact ih pre (cur ++ [b]) (by simp)

lemma groupBreaks_cons (b : Nat) (rest : List Nat) :
    groupBreaks (b :: rest) =
      (if 86400000 < b then [none] else []) ++ (gpAux [b] rest).map some := by
  unfold groupBreaks
  rw [List.foldl_cons]
  by_cases hb : 86400000 < b
  · rw [breakStep_nil_gt b hb]
    have h := foldl_break rest [none] [b] (by simp)
    simp only [List.length_singleton] at h
    rw [show ([none, some [b]] : List (Option (List Nat))) = [none] ++ [some [b]] from rfl]
    rw [h]
    rw [if_pos hb]
  · rw [breakStep_nil_le b hb]
    have h := foldl_break rest [] [b] (by simp)
    simp only [List.length_nil] at h
    rw [show ([some [b]] : List (Option (List Nat))) = [] ++ [some [b]] from rfl]
    rw [h]
    rw [if_neg hb]

lemma gpAux_flatten (rest : List Nat) :
    ∀ cur, (gpAux cur rest).flatten = cur ++ rest := by
  induction rest with
  | nil => intro cur; simp [gpAux]
  | cons b rest ih =>
    intro cur
    simp only [gpAux]
    split
    · simp [ih]
    · rw [ih (cur ++ [b])]
      simp

lemma gpAux_mem_ne_nil (rest : List Nat) :
    ∀ cur g, cur ≠ [] → g ∈ gpAux cur rest → g ≠ [] := by
  induction rest with
  | nil =>
    intro cur g hcur hg
    simp [gpAux] at hg
    exact hg ▸ hcur
  | cons b rest ih =>
    intro cur g hcur hg
    simp only [gpAux] at hg
    split at hg
    · rcases List.mem_cons.mp hg with rfl | hg'
      · exact hcur
      · exact ih [b] g (by simp) hg'
    · exact ih (cur ++ [b]) g (by simp) hg

lemma gpAux_head (rest : List Nat) :
    ∀ cur, cur ≠ [] →
    ∃ g gs, gpAux cur rest = g :: gs ∧ g.head? = cur.head? := by
  induction rest with
  | nil =>
    intro cur hcur
    exact ⟨cur, [], rfl, rfl⟩
  | cons b rest ih =>
    intro cur hcur
    simp only [gpAux]
    split
    · exact ⟨cur, gpAux [b] rest, rfl, rfl⟩
    · obtain ⟨g, gs, hEq, hHead⟩ := ih (cur ++ [b]) (by simp)
      refine ⟨g, gs, hEq, ?_⟩
      rw [hHead]
      rcases cur with _ | ⟨c, cs⟩
      · exact absurd rfl hcur
      · simp

lemma gpAux_chain_within (rest : List Nat) :
    ∀ cur, cur ≠ [] →
    List.Chain' (fun x y => x < y ∧ y - x ≤ 86400000) cur →
    List.Chain' (· < ·) (cur ++ rest) →
    ∀ g ∈ gpAux cur rest, List.Chain' (fun x y => x < y ∧ y - x ≤ 86400000) g := by
  induction rest with
  | nil =>
    intro cur hcur hchain hasc g hg
    simp [gpAux] at hg
    exact hg ▸ hchain
  | cons b rest ih =>
    intro cur hcur hchain hasc g hg
    obtain ⟨hasc1, hasc2, hlink⟩ := List.chain'_append.mp hasc
    simp only [gpAux] at hg
    split at hg
    case isTrue hgap =>
      rcases List.mem_cons.mp hg with rfl | hg'
      · exact hchain
      · exact ih [b] (by simp) (by simp) (by simpa using hasc2) g hg'
    case isFalse hgap =>
      refine ih (cur ++ [b]) (by simp) ?_ ?_ g hg
      · refine List.chain'_append.mpr ⟨hchain, by simp, ?_⟩
        intro x hx y hy
        simp at hy
        subst hy
        have hxlt : x < b := by
          refine hlink x hx b ?_
          simp
        refine ⟨hxlt, ?_⟩
        have hLast : cur.getLast? = some (cur.getLastD 0) := getLast?_of_ne_nil cur hcur
        rw [hLast] at hx
        have hx' : cur.getLastD 0 = x := by
          simpa [Option.mem_some_iff] using hx
        omega
      · rw [List.append_assoc]
        simpa using hasc

lemma gpAux_chain_boundary (rest : List Nat) :
    ∀ cur, cur ≠ [] →
    List.Chain' (· < ·) (cur ++ rest) →
    List.Chain' (fun g h => ∀ x ∈ g.getLast?, ∀ y ∈ h.head?, x < y ∧ 86400000 < y - x)
      (gpAux cur rest) := by
  induction rest with
  | nil =>
    intro cur hcur hasc
    simp [gpAux]
  | cons b rest ih =>
    intro cur hcur hasc
    obtain ⟨hasc1, hasc2, hlink⟩ := List.chain'_append.mp hasc
    simp only [gpAux]
    split
    case isTrue hgap =>
      rw [List.chain'_cons']
      constructor
      · intro h hh x hx y hy
        obtain ⟨g0, gs0, hEq, hHead⟩ := gpAux_head rest [b] (by simp)
        rw [hEq] at hh
        simp at hh
        subst hh
        rw [hHead] at hy
        simp at hy
        subst hy
        have hLast : cur.getLast? = some (cur.getLastD 0) := getLast?_of_ne_nil cur hcur
        rw [hLast] at hx
        have hx' : cur.getLastD 0 = x := by
          simpa [Option.mem_some_iff] using hx
        have hxlt : x < b := by
          refine hlink x ?_ b ?_
          · rw [hLast]
            exact hx
          · simp
        exact ⟨hxlt, by omega⟩
      · exact ih [b] (by simp) (by simpa using hasc2)
    case isFalse hgap =>
      refine ih (cur ++ [b]) (by simp) ?_
      rw [List.append_assoc]
      simpa using hasc

lemma getDaysOff_pairwise (days : Nat → Nat → Nat → Bool) (start maxd : Nat) :
    (getDaysOff days start maxd).Pairwise (· < ·) := by
  have h1 : ((List.range (maxd + 1 - start)).map (fun k => start + k)).Pairwise (· < ·) := by
    refine (List.pairwise_lt_range _).map _ ?_
    intro a b hab
    omega
  have h2 : (offDayNums days start maxd).Pairwise (· < ·) := h1.filter _
  refine h2.map _ ?_
  intro a b hab
  omega

lemma getDaysOff_mem_lb (days : Nat → Nat → Nat → Bool) (start maxd : Nat) :
    ∀ t ∈ getDaysOff days start maxd, start * 86400000 ≤ t := by
  intro t ht
  unfold getDaysOff at ht
  obtain ⟨z, hz, rfl⟩ := List.mem_map.mp ht
  unfold offDayNums at hz
  have hz' := List.mem_of_mem_filter hz
  obtain ⟨k, _, rfl⟩ := List.mem_map.mp hz'
  have : start ≤ start + k := by omega
  exact Nat.mul_le_mul_right _ this

lemma filterMap_pad (c : Prop) [Decidable c] (gs : List (List Nat)) :
    ((if c then [none] else []) ++ gs.map some).filterMap id = gs := by
  split <;> simp

theorem c6_getBreaks_grouping (days : Nat → Nat → Nat → Bool) (start maxd : Nat) :
    List.Chain' (· < ·) (getDaysOff days start maxd) ∧
    ((groupBreaks (getDaysOff days start maxd)).filterMap id).flatten
        = getDaysOff days start maxd ∧
    (∀ g ∈ (groupBreaks (getDaysOff days start maxd)).filterMap id,
        g ≠ [] ∧ List.Chain' (fun x y => x < y ∧ y - x ≤ 86400000) g) ∧
    List.Chain' (fun g h => ∀ x ∈ g.getLast?, ∀ y ∈ h.head?,
        x < y ∧ 86400000 < y - x)
      ((groupBreaks (getDaysOff days start maxd)).filterMap id) := by
  have hasc : List.Chain' (· < ·) (getDaysOff days start maxd) :=
    (getDaysOff_pairwise days start maxd).chain'
  refine ⟨hasc, ?_⟩
  rcases hds : getDaysOff days start maxd with _ | ⟨b0, rest⟩
  · refine ⟨by rfl, ?_, ?_⟩
    · intro g hg
      simp [groupBreaks] at hg
    · simp [groupBreaks]
  · rw [hds] at hasc
    have hasc' : List.Chain' (· < ·) ([b0] ++ rest) := by simpa using hasc
    rw [groupBreaks_cons, filterMap_pad]
    refine ⟨?_, ?_, ?_⟩
    · rw [gpAux_flatten]
      simp
    · intro g hg
      exact ⟨gpAux_mem_ne_nil rest [b0] g (by simp) hg,
        gpAux_chain_within rest [b0] (by simp) (by simp) hasc' g hg⟩
    · exact gpAux_chain_boundary rest [b0] (by simp) hasc'

theorem c9_firstGroupHole (days : Nat → Nat → Nat → Bool) (start maxd : Nat)
    (h2 : 2 ≤ start) (hne : getDaysOff days start maxd ≠ []) :
    (groupBreaks (getDaysOff days start maxd)).get? 0 = some none ∧
    ∃ g, (groupBreaks (getDaysOff days start maxd)).get? 1 = some (some g) ∧ g ≠ [] := by
  rcases hds : getDaysOff days start maxd with _ | ⟨b0, rest⟩
  · exact absurd hds hne
  · have hb0 : 86400000 < b0 := by
      have hlb := getDaysOff_mem_lb days start maxd b0 (by rw [hds]; exact List.mem_cons_self _ _)
      omega
    rw [groupBreaks_cons, if_pos hb0]
    obtain ⟨g, gs, hEq, hHead⟩ := gpAux_head rest [b0] (by simp)
    refine ⟨by rfl, g, ?_, ?_⟩
    · rw [hEq]
      rfl
    · intro hgnil
      rw [hgnil] at hHead
      simp at hHead

theorem c9_firstGroupHole_witness :
    2 ≤ 2 ∧ getDaysOff (fun _ _ _ => false) 2 2 ≠ [] ∧
    ((groupBreaks (getDaysOff (fun _ _ _ => false) 2 2)).get? 0 = some none ∧
      ∃ g, (groupBreaks (getDaysOff (fun _ _ _ => false) 2 2)).get? 1 = some (some g) ∧
        g ≠ []) :=
  ⟨by decide, by decide, c9_firstGroupHole (fun _ _ _ => false) 2 2 (by decide) (by decide)⟩
